import Mathlib

/-!
Shallow embedding of `src/transcribe.py` (ithan1985/audio2text).

The program's numeric type is IEEE `float`; the embedding uses `ℚ` with the
exact field operations Python performs (`//`, `%`, `int`, `round` with ties to
even).  Concrete inputs used in theorems below are dyadic rationals whose
Python-float computations are exact, so the embedded runs coincide with the
program's.  Fallible steps (`ffmpeg`, the recognizer, the translation
pipeline) are modelled with `Except`/`Option`-valued oracles, and Python
exceptions with `Except.error`.
-/

set_option maxRecDepth 8000

namespace Audio2Text

/-- Python `round(x)`: nearest integer, ties to even (used by `ts` for the
millisecond field, line 29 of `transcribe.py`). -/
def pyRound (q : ℚ) : ℤ :=
  if Int.fract q < 1/2 then ⌊q⌋
  else if 1/2 < Int.fract q then ⌊q⌋ + 1
  else if ⌊q⌋ % 2 = 0 then ⌊q⌋ else ⌊q⌋ + 1

/-- Python `int(x)`: truncation toward zero. -/
def pyInt (q : ℚ) : ℤ := if q < 0 then ⌈q⌉ else ⌊q⌋

/-- Python floor division `a // b` (result is a floor-valued float). -/
def pyFloorDiv (a b : ℚ) : ℚ := (⌊a / b⌋ : ℤ)

/-- Python modulo `a % b`, which equals `a - b * (a // b)`. -/
def pyMod (a b : ℚ) : ℚ := a - b * pyFloorDiv a b

/-- Python format spec `{i:0wd}`: decimal representation zero-padded to a
minimum total width `w`; for a negative number the sign occupies part of the
width and the zeros follow the sign. -/
def zpad (w : Nat) (i : ℤ) : List Char :=
  if i < 0 then
    '-' :: (List.replicate (w - 1 - (Nat.toDigits 10 i.natAbs).length) '0'
      ++ Nat.toDigits 10 i.natAbs)
  else
    List.replicate (w - (Nat.toDigits 10 i.toNat).length) '0'
      ++ Nat.toDigits 10 i.toNat

/-- `ts(seconds)` (`transcribe.py` lines 23–30): `None` maps to
`"00:00:00,000"`; otherwise `h = int(seconds // 3600)`,
`m = int((seconds % 3600) // 60)`, `s = int(seconds % 60)`,
`ms = int(round((seconds - int(seconds)) * 1000))`, rendered as
`f"{h:02d}:{m:02d}:{s:02d},{ms:03d}"`. -/
def ts (seconds : Option ℚ) : String :=
  match seconds with
  | none => "00:00:00,000"
  | some seconds =>
    let h : ℤ := pyInt (pyFloorDiv seconds 3600)
    let m : ℤ := pyInt (pyFloorDiv (pyMod seconds 3600) 60)
    let s : ℤ := pyInt (pyMod seconds 60)
    let ms : ℤ := pyRound ((seconds - (pyInt seconds : ℚ)) * 1000)
    ⟨zpad 2 h ++ ':' :: (zpad 2 m ++ ':' :: (zpad 2 s ++ ',' :: zpad 3 ms))⟩

/-- Python `str.strip()`: remove leading and trailing whitespace. -/
def pyStrip (s : String) : String :=
  ⟨((s.data.dropWhile Char.isWhitespace).reverse.dropWhile Char.isWhitespace).reverse⟩

/-- One segment dict as materialized by `main` (lines 147–152): keys
`id`, `start`, `end`, `text`. -/
structure Segment where
  id : ℤ
  start : ℚ
  «end» : ℚ
  text : String
  deriving DecidableEq

/-- `write_txt` (lines 47–48): the content written to the `.txt` file,
`"\n".join(s["text"].strip() for s in segments)`. -/
def write_txt (segments : List Segment) : String :=
  String.intercalate "\n" (segments.map fun s => pyStrip s.text)

/-- One subtitle block written by `write_srt` for 1-based position `i`:
`f"{i}\n{ts(s['start'])} --> {ts(s['end'])}\n{s['text'].strip()}\n\n"`. -/
def srtBlock (i : Nat) (s : Segment) : String :=
  toString i ++ "\n" ++ ts (some s.start) ++ " --> " ++ ts (some s.«end») ++ "\n"
    ++ pyStrip s.text ++ "\n\n"

/-- The loop of `write_srt` (lines 51–54): blocks for positions `i, i+1, …`. -/
def srtBlocksFrom : Nat → List Segment → String
  | _, [] => ""
  | i, s :: rest => srtBlock i s ++ srtBlocksFrom (i + 1) rest

/-- `write_srt` (lines 51–54): the content written to the `.srt` file,
one block per segment, enumerated from 1. -/
def write_srt (segments : List Segment) : String :=
  srtBlocksFrom 1 segments

/-- JSON values, as the abstract syntax serialized by `json.dumps`
(Python distinguishes `int` from `float`; object fields keep insertion
order). -/
inductive Json where
  | null
  | bool (b : Bool)
  | int (i : ℤ)
  | num (q : ℚ)
  | str (s : String)
  | arr (elems : List Json)
  | obj (fields : List (String × Json))

/-- The JSON object for one segment dict: the keys in the insertion order of
lines 147–152. -/
def segToJson (s : Segment) : Json :=
  Json.obj [("id", Json.int s.id), ("start", Json.num s.start),
    ("end", Json.num s.«end»), ("text", Json.str s.text)]

/-- `write_json` (lines 57–59): the payload
`{"language": lang, "duration_sec": duration, "segments": segments}`
serialized to the `.json` file (modelled at the level of the JSON value;
`json.dumps(..., ensure_ascii=False, indent=2)` renders this value as text
and Python's serialization of floats is exact). -/
def write_json (segments : List Segment) (lang : String) (duration : ℚ) : Json :=
  Json.obj [("language", Json.str lang), ("duration_sec", Json.num duration),
    ("segments", Json.arr (segments.map segToJson))]

/-- Key list of a JSON object (empty for non-objects). -/
def Json.keys : Json → List String
  | Json.obj fields => fields.map Prod.fst
  | _ => []

/-- First value bound to a key in a JSON object. -/
def Json.lookupKey (j : Json) (k : String) : Option Json :=
  match j with
  | Json.obj fields => (fields.find? fun p => p.fst = k).map Prod.snd
  | _ => none

/-- A raw segment yielded by the recognizer (`faster_whisper` segment object):
besides `id`, `start`, `end`, `text` it carries the quality/diagnostic fields
(average log-probability, no-speech probability, decoding temperature,
compression ratio). -/
structure RecSeg where
  id : ℤ
  start : ℚ
  «end» : ℚ
  text : Option String
  avg_logprob : ℚ
  no_speech_prob : ℚ
  temperature : ℚ
  compression_ratio : ℚ

/-- The dict built for one recognizer segment by the materialization loop of
`main` (lines 146–152): only `id`, `start`, `end` and the stripped text
(`(seg.text or "").strip()`) are kept. -/
def materializeSegment (r : RecSeg) : Segment :=
  { id := r.id, start := r.start, «end» := r.«end»,
    text := pyStrip (r.text.getD "") }

/-- Deserializer for one segment object of the JSON artifact (the inverse
direction of `json.dumps` on one materialized dict), following the schema of
the spec: fields `id`, `start`, `end`, `text`. -/
def readSegment (j : Json) : Option Segment :=
  match j.lookupKey "id", j.lookupKey "start", j.lookupKey "end",
      j.lookupKey "text" with
  | some (Json.int i), some (Json.num a), some (Json.num b),
      some (Json.str t) => some { id := i, start := a, «end» := b, text := t }
  | _, _, _, _ => none

/-- Deserializer for a list of segment objects. -/
def readSegmentList : List Json → Option (List Segment)
  | [] => some []
  | j :: rest =>
    match readSegment j, readSegmentList rest with
    | some s, some t => some (s :: t)
    | _, _ => none

/-- Deserializer for the segment list of the JSON artifact. -/
def readSegments (j : Json) : Option (List Segment) :=
  match j.lookupKey "segments" with
  | some (Json.arr elems) => readSegmentList elems
  | _ => none

/-- Environment of `translate_segments`: whether `transformers` imported
(module-level `try` of lines 16–20), and the outcome of
`pipeline("translation", model=model_name, device=-1)` for a model name:
`none` when the construction raises (caught at lines 77–80), otherwise the
translator, itself a fallible batched call on a list of texts returning one
`translation_text` per item. -/
structure TransEnv where
  transformersAvailable : Bool
  loadPipeline : String → Option (List String → Except String (List String))

/-- `translate_segments(segments, src_lang, dest_lang)` (lines 62–90).
The value is `Except`: `Except.error` models an uncaught Python exception
escaping the function (the batched translator call at line 86 is outside the
`try` of lines 75–80). The copies keep their original `text` beyond the
length of the translated batch because line 88 iterates `zip(segments_copy,
translated_texts)`. -/
def translate_segments (env : TransEnv) (segments : List Segment)
    (src_lang : String) (dest_lang : String) :
    Except String (List Segment × Bool) :=
  if ¬ env.transformersAvailable then Except.ok (segments, false)
  else if src_lang = dest_lang then Except.ok (segments, false)
  else
    let model_name := "Helsinki-NLP/opus-mt-" ++ src_lang ++ "-" ++ dest_lang
    match env.loadPipeline model_name with
    | none => Except.ok (segments, false)
    | some translator =>
      let texts_to_translate := segments.map Segment.text
      match translator texts_to_translate with
      | Except.error e => Except.error e
      | Except.ok translated_texts =>
        let segments_copy :=
          List.zipWith (fun s t => { s with text := t }) segments translated_texts
            ++ segments.drop translated_texts.length
        Except.ok (segments_copy, true)

/-- Session metadata returned by `model.transcribe` (`info`). -/
structure SessionInfo where
  language : String
  duration : ℚ

/-- Environment of one `main` run: the CLI-visible facts and the outcomes of
the external collaborators.  `conversionResult` is the `ffmpeg` subprocess
outcome (`Except.error` models the raised `CalledProcessError`);
`transcription` models model construction plus the consumption of the lazy
segment iterator (`Except.error` models an exception caught at line 155). -/
structure MainEnv where
  inputExists : Bool
  inputName : String
  inputStem : String
  ffmpegAvailable : Bool
  conversionResult : Except String Unit
  transcription : Except String (List RecSeg × SessionInfo)
  progress : Nat
  translate_to : Option String
  transEnv : TransEnv

/-- Data of one file placed in the output directory. -/
inductive FileData where
  | wavData
  | textData (content : String)
  | jsonData (content : Json)

/-- Observable outcome of one `main` run: the process exit status, whether
the temporary directory created by `preconvert_to_wav` still exists when the
process exits, the files left in the output subdirectory (name and content,
in creation order), and the messages printed to stdout and stderr. -/
structure RunResult where
  exitCode : Nat
  tempDirExists : Bool
  outFiles : List (String × FileData)
  stdout : List String
  stderr : List String

/-- The progress notifications of the materialization loop (lines 153–154):
for each 1-based index divisible by `progress`, the count and the `end`
timestamp of the most recent segment. -/
def progressMessages (progress : Nat) (recSegs : List RecSeg) : List String :=
  (recSegs.mapIdx fun k s => (k + 1, s)).filterMap fun p =>
    if p.1 % progress = 0 then
      some ("[INFO] Segmentos procesados: " ++ toString p.1
        ++ ", tiempo actual: " ++ ts (some p.2.«end»))
    else none

/-- `main` (lines 93–216) as a function from the run environment to the
observable outcome.  `preconvert_to_wav` (lines 33–44) is inlined at its
call site: the `ffmpeg` availability check precedes `tempfile.mkdtemp()`, so
a missing `ffmpeg` raises `SystemExit` before the temporary directory
exists, while a failing conversion subprocess raises after it was created;
the `except` at lines 128–130 exits without removing it.  On a transcription
error, lines 157–158 remove the directory; on the success path lines 167–168
move the waveform into the output directory and remove it. -/
def runMain (env : MainEnv) : RunResult :=
  if ¬ env.inputExists then
    { exitCode := 1, tempDirExists := false, outFiles := [], stdout := [],
      stderr := ["No existe el archivo: " ++ env.inputName] }
  else
    let convertingMsg := "[INFO] Convirtiendo \x27" ++ env.inputName
      ++ "\x27 a formato WAV para análisis..."
    if ¬ env.ffmpegAvailable then
      { exitCode := 1, tempDirExists := false, outFiles := [],
        stdout := [convertingMsg],
        stderr := ["[ERROR] ffmpeg no está instalado o no se encuentra en el PATH. Es necesario para la conversión de audio."] }
    else
      match env.conversionResult with
      | Except.error e =>
        { exitCode := 1, tempDirExists := true, outFiles := [],
          stdout := [convertingMsg],
          stderr := ["\n[ERROR] Falló la conversión de audio con ffmpeg: " ++ e] }
      | Except.ok () =>
        match env.transcription with
        | Except.error e =>
          { exitCode := 1, tempDirExists := false, outFiles := [],
            stdout := [convertingMsg],
            stderr := ["\n[ERROR] Ocurrió un error durante la transcripción: " ++ e] }
        | Except.ok (recSegs, info) =>
          let segments := recSegs.map materializeSegment
          let output_lang := info.language
          let wavName := env.inputStem ++ "_" ++ output_lang ++ "_fw16k.wav"
          let stdout0 := [convertingMsg] ++ progressMessages env.progress recSegs
            ++ ["\n✅ Audio convertido -> " ++ output_lang.toUpper,
              "   - " ++ env.inputStem ++ "/" ++ wavName]
          if segments.isEmpty then
            { exitCode := 0, tempDirExists := false,
              outFiles := [(wavName, FileData.wavData)],
              stdout := stdout0 ++ ["\n[INFO] No se detectaron segmentos de audio. No se crearán archivos de transcripción."],
              stderr := [] }
          else
            let stem := env.inputStem ++ "_" ++ output_lang
            let baseFiles := [(wavName, FileData.wavData),
              (stem ++ ".txt", FileData.textData (write_txt segments)),
              (stem ++ ".srt", FileData.textData (write_srt segments)),
              (stem ++ ".json",
                FileData.jsonData (write_json segments output_lang info.duration))]
            let stdout1 := stdout0 ++ ["\n✅ Transcrito -> " ++ output_lang.toUpper,
              "   - " ++ env.inputStem ++ "/" ++ stem ++ ".txt",
              "   - " ++ env.inputStem ++ "/" ++ stem ++ ".srt",
              "   - " ++ env.inputStem ++ "/" ++ stem ++ ".json"]
            match env.translate_to with
            | none =>
              { exitCode := 0, tempDirExists := false, outFiles := baseFiles,
                stdout := stdout1, stderr := [] }
            | some dest_lang =>
              let stdout2 := stdout1 ++ ["\n[INFO] Iniciando traducción de \x27"
                ++ output_lang ++ "\x27 a \x27" ++ dest_lang ++ "\x27..."]
              match translate_segments env.transEnv segments output_lang dest_lang with
              | Except.error e =>
                { exitCode := 1, tempDirExists := false, outFiles := baseFiles,
                  stdout := stdout2, stderr := [e] }
              | Except.ok (translated_segments, success) =>
                if success then
                  let translated_stem := env.inputStem ++ "_" ++ output_lang
                    ++ "-" ++ dest_lang
                  { exitCode := 0, tempDirExists := false,
                    outFiles := baseFiles
                      ++ [(translated_stem ++ "_fw16k.wav", FileData.wavData),
                        (translated_stem ++ ".txt",
                          FileData.textData (write_txt translated_segments)),
                        (translated_stem ++ ".srt",
                          FileData.textData (write_srt translated_segments)),
                        (translated_stem ++ ".json",
                          FileData.jsonData (write_json translated_segments
                            dest_lang info.duration))],
                    stdout := stdout2 ++ ["✅ Traducido a " ++ dest_lang.toUpper
                      ++ " (desde " ++ output_lang.toUpper ++ ")",
                      "   - " ++ env.inputStem ++ "/" ++ translated_stem ++ "_fw16k.wav",
                      "   - " ++ env.inputStem ++ "/" ++ translated_stem ++ ".txt",
                      "   - " ++ env.inputStem ++ "/" ++ translated_stem ++ ".srt",
                      "   - " ++ env.inputStem ++ "/" ++ translated_stem ++ ".json"],
                    stderr := [] }
                else
                  { exitCode := 0, tempDirExists := false, outFiles := baseFiles,
                    stdout := stdout2, stderr := [] }

/-- The list of segment objects inside a JSON artifact value. -/
def jsonSegments (j : Json) : List Json :=
  match j.lookupKey "segments" with
  | some (Json.arr elems) => elems
  | _ => []

/-- The fixed-width timestamp normal form claimed by §4.1 of the spec:
two-digit hours, minutes and seconds, a comma, and exactly three millisecond
digits. -/
def tsSpecForm (h m s ms : Nat) : String :=
  ⟨[Nat.digitChar (h / 10), Nat.digitChar (h % 10), ':',
    Nat.digitChar (m / 10), Nat.digitChar (m % 10), ':',
    Nat.digitChar (s / 10), Nat.digitChar (s % 10), ',',
    Nat.digitChar (ms / 100), Nat.digitChar (ms / 10 % 10), Nat.digitChar (ms % 10)]⟩

/-- The subtitle renderer as §4.3 of the spec words it: for each segment at
1-based position `i`, a block, the blocks concatenated in order — the
numbering depending only on the position. -/
def srtSpec (segments : List Segment) : String :=
  (segments.mapIdx fun k s => srtBlock (k + 1) s).foldr (· ++ ·) ""

/-- Helper: `zipWith` with a function that ignores its second argument, when
the second list is at least as long, is a `map` over the first list. -/
theorem zipWith_ignore_right {α β γ : Type} (f : α → γ) :
    ∀ (l₁ : List α) (l₂ : List β), l₂.length = l₁.length →
      List.zipWith (fun a _ => f a) l₁ l₂ = l₁.map f
  | [], [], _ => rfl
  | [], _ :: _, h => by simp at h
  | _ :: _, [], h => by simp at h
  | a :: l₁, b :: l₂, h => by
    simp only [List.zipWith_cons_cons, List.map_cons]
    exact congrArg _ (zipWith_ignore_right f l₁ l₂ (by simpa using h))

/-- Helper: `zipWith` with a function that returns its second argument, at
equal lengths, returns the second list. -/
theorem zipWith_ignore_left {α β : Type} :
    ∀ (l₁ : List α) (l₂ : List β), l₂.length = l₁.length →
      List.zipWith (fun _ b => b) l₁ l₂ = l₂
  | [], [], _ => rfl
  | [], _ :: _, h => by simp at h
  | _ :: _, [], h => by simp at h
  | _ :: l₁, b :: l₂, h => by
    simp only [List.zipWith_cons_cons]
    exact congrArg _ (zipWith_ignore_left l₁ l₂ (by simpa using h))

/-- C5: for every segment list, `translate_segments(segments, src, dest)`
returns exactly `(segments, False)` — the unmodified input list and a `False`
success flag — whenever `src == dest`, or the `transformers` dependency is
missing, or the translation model identifier cannot be loaded; in particular
`translate(segments, "es", "es") == (segments, False)`. -/
theorem translate_degraded_returns_input (env : TransEnv) (segments : List Segment)
    (src_lang dest_lang : String)
    (h : env.transformersAvailable = false ∨ src_lang = dest_lang ∨
      env.loadPipeline ("Helsinki-NLP/opus-mt-" ++ src_lang ++ "-" ++ dest_lang) = none) :
    translate_segments env segments src_lang dest_lang = Except.ok (segments, false) := by
  unfold translate_segments
  rcases h with h | h | h
  · simp [h]
  · subst h
    by_cases ha : env.transformersAvailable <;> simp [ha]
  · by_cases ha : env.transformersAvailable <;>
      by_cases he : src_lang = dest_lang <;> simp [ha, he, h]

/-- Witness for C5 at the spec's no-op law `translate(segments, "es", "es")`:
a concrete environment with the dependency present and a loadable model, and
a concrete one-segment list. -/
theorem translate_degraded_returns_input_witness :
    translate_segments
      ⟨true, fun _ => some (fun texts => Except.ok texts)⟩
      [{ id := 1, start := 0, «end» := 3/2, text := "Hello" }] "es" "es"
      = Except.ok ([{ id := 1, start := 0, «end» := 3/2, text := "Hello" }], false) :=
  translate_degraded_returns_input _ _ _ _ (Or.inr (Or.inl rfl))

/-- C6: when translation succeeds (flag `True`), `translate_segments` returns
a new list of the same length and order, each element a copy of the
corresponding input segment with only `text` replaced — `id`, `start`, `end`
unchanged — and each new `text` is the corresponding translated string (the
input list itself, being a value, is unmodified). -/
theorem translate_success_shape (env : TransEnv) (segments : List Segment)
    (src_lang dest_lang : String)
    (translator : List String → Except String (List String))
    (translated_texts : List String)
    (ha : env.transformersAvailable = true)
    (hne : src_lang ≠ dest_lang)
    (hload : env.loadPipeline ("Helsinki-NLP/opus-mt-" ++ src_lang ++ "-" ++ dest_lang)
      = some translator)
    (hcall : translator (segments.map Segment.text) = Except.ok translated_texts)
    (hlen : translated_texts.length = segments.length) :
    translate_segments env segments src_lang dest_lang
      = Except.ok
          (List.zipWith (fun s t => { s with text := t }) segments translated_texts, true)
    ∧ (List.zipWith (fun s t => { s with text := t }) segments translated_texts).length
        = segments.length
    ∧ (List.zipWith (fun s t => { s with text := t }) segments translated_texts).map
          (fun s => (s.id, s.start, s.«end»))
        = segments.map (fun s => (s.id, s.start, s.«end»))
    ∧ (List.zipWith (fun s t => { s with text := t }) segments translated_texts).map
          Segment.text
        = translated_texts := by
  refine ⟨?_, ?_, ?_, ?_⟩
  · unfold translate_segments
    simp [ha, hne, hload, hcall, hlen, List.drop_length]
  · simp [List.length_zipWith, hlen]
  · rw [List.map_zipWith]
    dsimp only
    exact zipWith_ignore_right _ segments translated_texts hlen
  · rw [List.map_zipWith]
    dsimp only
    exact zipWith_ignore_left segments translated_texts hlen

/-- Witness for C6: a concrete environment whose translator prepends `"X"`
to each text, applied to a concrete one-segment list. -/
theorem translate_success_shape_witness :
    translate_segments
      ⟨true, fun _ => some (fun texts => Except.ok (texts.map (fun t => "X" ++ t)))⟩
      [{ id := 7, start := 1/2, «end» := 3/2, text := "hola" }] "es" "en"
      = Except.ok ([{ id := 7, start := 1/2, «end» := 3/2, text := "Xhola" }], true) := by
  have h := translate_success_shape
    ⟨true, fun _ => some (fun texts => Except.ok (texts.map (fun t => "X" ++ t)))⟩
    [{ id := 7, start := 1/2, «end» := 3/2, text := "hola" }] "es" "en"
    (fun texts => Except.ok (texts.map (fun t => "X" ++ t))) ["Xhola"]
    rfl (by decide) rfl rfl rfl
  exact h.1

/-- C10: when the translation pipeline object is constructed successfully but
the batched translator call itself raises, `translate_segments` does not
catch the exception — it propagates to the caller (first conjunct); and the
degraded `(segments, False)` result arises only from a missing dependency,
identical languages, or a model-loading failure (second conjunct). -/
theorem translate_call_exception_propagates :
    (∀ (env : TransEnv) (segments : List Segment) (src_lang dest_lang : String)
      (translator : List String → Except String (List String)) (e : String),
      env.transformersAvailable = true → src_lang ≠ dest_lang →
      env.loadPipeline ("Helsinki-NLP/opus-mt-" ++ src_lang ++ "-" ++ dest_lang)
        = some translator →
      translator (segments.map Segment.text) = Except.error e →
      translate_segments env segments src_lang dest_lang = Except.error e)
    ∧ (∀ (env : TransEnv) (segments result : List Segment) (src_lang dest_lang : String),
      translate_segments env segments src_lang dest_lang = Except.ok (result, false) →
      result = segments ∧
        (env.transformersAvailable = false ∨ src_lang = dest_lang ∨
          env.loadPipeline ("Helsinki-NLP/opus-mt-" ++ src_lang ++ "-" ++ dest_lang)
            = none)) := by
  constructor
  · intro env segments src_lang dest_lang translator e ha hne hload hcall
    unfold translate_segments
    simp [ha, hne, hload, hcall]
  · intro env segments result src_lang dest_lang h
    unfold translate_segments at h
    by_cases ha : env.transformersAvailable
    · by_cases he : src_lang = dest_lang
      · simp [ha, he] at h
        exact ⟨h.symm, Or.inr (Or.inl he)⟩
      · simp [ha, he] at h
        rcases hload : env.loadPipeline
            ("Helsinki-NLP/opus-mt-" ++ src_lang ++ "-" ++ dest_lang) with _ | translator
        · simp [hload] at h
          refine ⟨h.symm, Or.inr (Or.inr ?_)⟩
          simp [hload]
        · simp only [hload] at h
          rcases hcall : translator (segments.map Segment.text) with e | texts <;>
            simp [hcall] at h
    · simp only [Bool.not_eq_true] at ha
      simp [ha] at h
      exact ⟨h.symm, Or.inl ha⟩

/-- Witness for C10: a concrete environment whose pipeline loads but whose
batched call raises; the exception escapes `translate_segments`. -/
theorem translate_call_exception_propagates_witness :
    translate_segments ⟨true, fun _ => some (fun _ => Except.error "CUDA out of memory")⟩
      [{ id := 1, start := 0, «end» := 1, text := "hola" }] "es" "en"
      = Except.error "CUDA out of memory" :=
  translate_call_exception_propagates.1 _ _ _ _ _ _ rfl (by decide) rfl rfl

/-- Counterexample to C3: a concrete run whose recognizer segment carries all
four quality fields, yet the segment object of the JSON artifact has exactly
the keys `id`, `start`, `end`, `text` — the quality fields are not among
them. -/
theorem json_quality_fields_counterexample :
    (jsonSegments (write_json
        ([({ id := 1, start := 0, «end» := 3/2, text := some " Hello",
             avg_logprob := -1/2, no_speech_prob := 1/100, temperature := 0,
             compression_ratio := 3/2 } : RecSeg)].map materializeSegment)
        "es" (5/2))).map Json.keys = [["id", "start", "end", "text"]]
    ∧ "avg_logprob" ∉ ["id", "start", "end", "text"] := by
  constructor
  · rfl
  · decide

/-- C3 (amended): in every JSON artifact — for the original-language and the
translated segment list alike — each segment object carries exactly the
fields `id`, `start`, `end`, `text`; none of the recognizer's
quality/diagnostic fields is present. -/
theorem json_segment_fields (segments : List Segment) (lang : String) (dur : ℚ)
    (j : Json) (hj : j ∈ jsonSegments (write_json segments lang dur)) :
    Json.keys j = ["id", "start", "end", "text"]
    ∧ j.lookupKey "avg_logprob" = none
    ∧ j.lookupKey "no_speech_prob" = none
    ∧ j.lookupKey "temperature" = none
    ∧ j.lookupKey "compression_ratio" = none := by
  have heq : jsonSegments (write_json segments lang dur) = segments.map segToJson := rfl
  rw [heq] at hj
  rcases List.mem_map.mp hj with ⟨s, _, rfl⟩
  exact ⟨rfl, rfl, rfl, rfl, rfl⟩

/-- Witness for the amended C3 at a concrete one-segment artifact. -/
theorem json_segment_fields_witness :
    Json.keys (segToJson { id := 1, start := 0, «end» := 1, text := "a" })
      = ["id", "start", "end", "text"] :=
  (json_segment_fields [{ id := 1, start := 0, «end» := 1, text := "a" }] "es" 0
    (segToJson { id := 1, start := 0, «end» := 1, text := "a" })
    (List.mem_singleton.mpr rfl)).1

/-- C8: deserializing the structured renderer's output recovers every
segment — in particular each segment's `start`, `end` and `text` — exactly:
the renderer applies no transformation to the values (stated on the JSON
value; Python's textual serialization of floats round-trips exactly). -/
theorem json_roundtrip (segments : List Segment) (lang : String) (dur : ℚ) :
    readSegments (write_json segments lang dur) = some segments := by
  show readSegmentList (segments.map segToJson) = some segments
  induction segments with
  | nil => rfl
  | cons s t ih =>
    have hs : readSegment (segToJson s) = some s := rfl
    simp only [List.map_cons, readSegmentList, hs, ih]

/-- Timestamp of 0 seconds, as evaluated by the code. -/
theorem ts_eval_zero : ts (some (0 : ℚ)) = "00:00:00,000" := by
  simp only [ts]
  norm_num [pyInt, pyFloorDiv, pyMod, pyRound, Int.fract]
  rfl

/-- Timestamp of 1.5 seconds, as evaluated by the code. -/
theorem ts_eval_three_halves : ts (some (3/2 : ℚ)) = "00:00:01,500" := by
  simp only [ts]
  norm_num [pyInt, pyFloorDiv, pyMod, pyRound, Int.fract]
  rfl

/-- Timestamp of 3 seconds, as evaluated by the code. -/
theorem ts_eval_three : ts (some (3 : ℚ)) = "00:00:03,000" := by
  simp only [ts]
  norm_num [pyInt, pyFloorDiv, pyMod, pyRound, Int.fract]
  rfl

/-- Helper: the subtitle loop started at `i` equals the concatenation of the
blocks numbered `i + position`. -/
theorem srtBlocksFrom_eq (segments : List Segment) :
    ∀ i, srtBlocksFrom i segments
      = (segments.mapIdx fun k s => srtBlock (i + k) s).foldr (· ++ ·) "" := by
  induction segments with
  | nil => intro i; rfl
  | cons s t ih =>
    intro i
    have hfun : (fun k x => srtBlock (i + (k + 1)) x)
        = (fun k x => srtBlock ((i + 1) + k) x) := by
      funext k x
      congr 1
      omega
    rw [srtBlocksFrom, List.mapIdx_cons, List.foldr_cons, ih (i + 1), hfun]
    simp

/-- Helper: `srtBlock` does not read the `id` field. -/
theorem srtBlock_ignores_id (i : Nat) (s : Segment) (g : Segment → ℤ) :
    srtBlock i { s with id := g s } = srtBlock i s := rfl

/-- C7: on the spec's end-to-end scenario the text artifact is
`"Hello\nworld"` and the subtitle artifact is the two expected blocks; in
general the subtitle renderer emits one block per segment, in order,
numbered from 1 by position (`srtSpec`), and the numbering is independent of
the segments' `id` fields. -/
theorem renderers_end_to_end :
    write_txt [{ id := 1, start := 0, «end» := 3/2, text := "Hello" },
        { id := 2, start := 3/2, «end» := 3, text := "world" }] = "Hello\nworld"
    ∧ write_srt [{ id := 1, start := 0, «end» := 3/2, text := "Hello" },
        { id := 2, start := 3/2, «end» := 3, text := "world" }]
      = "1\n00:00:00,000 --> 00:00:01,500\nHello\n\n2\n00:00:01,500 --> 00:00:03,000\nworld\n\n"
    ∧ (∀ segments : List Segment, write_srt segments = srtSpec segments)
    ∧ (∀ (segments : List Segment) (g : Segment → ℤ),
        write_srt (segments.map fun s => { s with id := g s }) = write_srt segments) := by
  refine ⟨rfl, ?_, ?_, ?_⟩
  · show srtBlock 1 _ ++ (srtBlock 2 _ ++ "") = _
    rw [srtBlock, srtBlock, ts_eval_zero, ts_eval_three_halves, ts_eval_three]
    rfl
  · intro segments
    have h := srtBlocksFrom_eq segments 1
    rw [write_srt, h, srtSpec]
    have hfun : (fun k (s : Segment) => srtBlock (1 + k) s)
        = (fun k s => srtBlock (k + 1) s) := by
      funext k s
      congr 1
      omega
    rw [hfun]
  · intro segments g
    rw [write_srt, write_srt]
    generalize 1 = i
    induction segments generalizing i with
    | nil => rfl
    | cons s t ih =>
      rw [List.map_cons, srtBlocksFrom, srtBlocksFrom, srtBlock_ignores_id, ih]

/-- C2, evaluated at the failing input: a run in which `ffmpeg` is present
but the conversion subprocess fails.  The process exits with status 1 while
the temporary directory created by `tempfile.mkdtemp()` inside
`preconvert_to_wav` still exists — the `except` branch of lines 128–130
performs no cleanup (and `temp_audio_path` is still `None` there), so the
claimed every-exit-path removal does not hold on this path. -/
theorem tempdir_leak_on_conversion_failure :
    (runMain { inputExists := true, inputName := "a.mp3", inputStem := "a",
               ffmpegAvailable := true,
               conversionResult := Except.error "CalledProcessError",
               transcription := Except.ok ([], { language := "es", duration := 0 }),
               progress := 10, translate_to := none,
               transEnv := { transformersAvailable := false,
                             loadPipeline := fun _ => none } }).tempDirExists = true
    ∧ (runMain { inputExists := true, inputName := "a.mp3", inputStem := "a",
                 ffmpegAvailable := true,
                 conversionResult := Except.error "CalledProcessError",
                 transcription := Except.ok ([], { language := "es", duration := 0 }),
                 progress := 10, translate_to := none,
                 transEnv := { transformersAvailable := false,
                               loadPipeline := fun _ => none } }).exitCode = 1 := by
  constructor <;> rfl

/-- C9: when the recognizer yields zero segments the run writes no text,
subtitle or JSON artifact — the relocated normalized waveform is the only
file in the output directory — prints the informational message, and exits
with status 0, with the temporary directory removed. -/
theorem empty_transcription_success (env : MainEnv) (info : SessionInfo)
    (h1 : env.inputExists = true)
    (h2 : env.ffmpegAvailable = true)
    (h3 : env.conversionResult = Except.ok ())
    (h4 : env.transcription = Except.ok ([], info)) :
    (runMain env).exitCode = 0
    ∧ (runMain env).outFiles
        = [(env.inputStem ++ "_" ++ info.language ++ "_fw16k.wav", FileData.wavData)]
    ∧ (runMain env).tempDirExists = false
    ∧ "\n[INFO] No se detectaron segmentos de audio. No se crearán archivos de transcripción."
        ∈ (runMain env).stdout := by
  obtain ⟨x1, x2, x3, x4, x5, x6, x7, x8, x9⟩ := env
  dsimp only at h1 h2 h3 h4 ⊢
  subst h1 h2 h3 h4
  simp [runMain, progressMessages]

/-- Witness for C9 at a concrete environment. -/
theorem empty_transcription_success_witness :
    (runMain { inputExists := true, inputName := "b.mp3", inputStem := "b",
               ffmpegAvailable := true, conversionResult := Except.ok (),
               transcription := Except.ok ([], { language := "en", duration := 7/2 }),
               progress := 10, translate_to := none,
               transEnv := { transformersAvailable := false,
                             loadPipeline := fun _ => none } }).exitCode = 0 :=
  (empty_transcription_success _ { language := "en", duration := 7/2 }
    rfl rfl rfl rfl).1

/-- Helper: `pyRound` is at least the floor. -/
theorem floor_le_pyRound (q : ℚ) : ⌊q⌋ ≤ pyRound q := by
  unfold pyRound
  split_ifs <;> omega

/-- Helper: `pyRound` is at most the floor plus one. -/
theorem pyRound_le_floor_add_one (q : ℚ) : pyRound q ≤ ⌊q⌋ + 1 := by
  unfold pyRound
  split_ifs <;> omega

/-- Helper: `pyRound` differs from its argument by at most one half. -/
theorem abs_sub_pyRound (q : ℚ) : |q - (pyRound q : ℚ)| ≤ 1/2 := by
  have hfr : Int.fract q = q - ⌊q⌋ := (Int.self_sub_floor q).symm
  have hf1 : (0:ℚ) ≤ q - ⌊q⌋ := by
    have := Int.floor_le q
    linarith
  have hf2 : q - ⌊q⌋ < 1 := by
    have := Int.lt_floor_add_one q
    linarith
  rw [abs_le]
  unfold pyRound
  split_ifs with h1 h2 h3
  · rw [hfr] at h1
    constructor <;> linarith
  · rw [hfr] at h1 h2
    push_cast
    constructor <;> linarith
  · rw [hfr] at h1 h2
    constructor <;> linarith
  · rw [hfr] at h1 h2
    push_cast
    constructor <;> linarith

/-- Helper: `pyRound` at one half, low case. -/
theorem pyRound_of_fract_lt (q : ℚ) (h : Int.fract q < 1/2) : pyRound q = ⌊q⌋ := by
  unfold pyRound
  rw [if_pos h]

/-- Helper: `pyRound`, high case. -/
theorem pyRound_of_lt_fract (q : ℚ) (h : 1/2 < Int.fract q) : pyRound q = ⌊q⌋ + 1 := by
  unfold pyRound
  rw [if_neg (by linarith), if_pos h]

/-- Helper: `pyRound` is monotone. -/
theorem pyRound_mono {q r : ℚ} (h : q ≤ r) : pyRound q ≤ pyRound r := by
  have hq := Int.floor_mono h
  rcases lt_or_eq_of_le hq with hf | hf
  · calc pyRound q ≤ ⌊q⌋ + 1 := pyRound_le_floor_add_one q
    _ ≤ ⌊r⌋ := by omega
    _ ≤ pyRound r := floor_le_pyRound r
  · have hfr : Int.fract q ≤ Int.fract r := by
      rw [← Int.self_sub_floor, ← Int.self_sub_floor, hf]
      linarith
    rcases lt_trichotomy (Int.fract q) (1/2 : ℚ) with h1 | h1 | h1
    · rw [pyRound_of_fract_lt q h1, hf]
      exact floor_le_pyRound r
    · rcases lt_or_eq_of_le hfr with h2 | h2
      · rw [pyRound_of_lt_fract r (by linarith)]
        have := pyRound_le_floor_add_one q
        omega
      · unfold pyRound
        rw [← h2, h1, hf]
    · rw [pyRound_of_lt_fract q h1, pyRound_of_lt_fract r (by linarith), hf]

/-- Helper: `pyRound` of a nonnegative argument is nonnegative. -/
theorem pyRound_nonneg (q : ℚ) (h : 0 ≤ q) : 0 ≤ pyRound q := by
  have h1 := floor_le_pyRound q
  have h2 : 0 ≤ ⌊q⌋ := Int.floor_nonneg.mpr h
  omega

/-- Helper: `pyRound` below 999.5 stays at most 999. -/
theorem pyRound_le_999 (q : ℚ) (h : q < 1999/2) : pyRound q ≤ 999 := by
  have h1 := pyRound_le_floor_add_one q
  by_cases hq : ⌊q⌋ ≤ 998
  · omega
  · have h2 : (999:ℚ) ≤ ⌊q⌋ := by
      have : (999:ℤ) ≤ ⌊q⌋ := by omega
      exact_mod_cast this
    have h3 : Int.fract q < 1/2 := by
      have := Int.self_sub_floor q
      have hfr : Int.fract q = q - ⌊q⌋ := (Int.self_sub_floor q).symm
      rw [hfr]
      linarith
    rw [pyRound_of_fract_lt q h3]
    have h4 : (⌊q⌋ : ℚ) ≤ q := Int.floor_le q
    have h5 : ⌊q⌋ < 1000 := by
      by_contra hc
      push_neg at hc
      have h6 : (1000:ℚ) ≤ (⌊q⌋ : ℚ) := by exact_mod_cast hc
      linarith
    omega

/-- Helper: for a nonnegative rational, the floor of the quotient by a
positive natural is the natural floor-division of the floors. -/
theorem floor_div_nat_of_nonneg (s : ℚ) (h : 0 ≤ s) (b : ℕ) (bq : ℚ)
    (hbq : bq = (b : ℚ)) : ⌊s / bq⌋ = ((⌊s⌋.toNat / b : ℕ) : ℤ) := by
  subst hbq
  have h1 : 0 ≤ s / (b : ℚ) := div_nonneg h (Nat.cast_nonneg b)
  rw [← Int.toNat_of_nonneg (Int.floor_nonneg.mpr h1)]
  congr 1
  rw [Int.floor_toNat, Int.floor_toNat]
  exact Nat.floor_div_nat s b

/-- Helper: Python `int()` of an integer-valued rational is that integer. -/
theorem pyInt_intCast (k : ℤ) : pyInt ((k : ℤ) : ℚ) = k := by
  unfold pyInt
  split_ifs
  · exact Int.ceil_intCast k
  · exact Int.floor_intCast k

/-- Helper: Python `int()` on a nonnegative value is the floor. -/
theorem pyInt_of_nonneg (q : ℚ) (h : 0 ≤ q) : pyInt q = ⌊q⌋ := by
  unfold pyInt
  rcases eq_or_lt_of_le h with h' | h'
  · rw [if_neg (by rw [← h']; exact lt_irrefl 0)]
  · rw [if_neg (not_lt.mpr (le_of_lt h'))]

/-- Helper: `pyMod` by a positive natural is nonnegative for nonnegative
arguments and has the floor `⌊s⌋ mod b`. -/
theorem pyMod_spec (s : ℚ) (h : 0 ≤ s) (b : ℕ) (hb : 0 < b) (bq : ℚ)
    (hbq : bq = (b : ℚ)) :
    0 ≤ pyMod s bq ∧ ⌊pyMod s bq⌋ = ((⌊s⌋.toNat % b : ℕ) : ℤ) := by
  have hb' : (0:ℚ) < (b:ℚ) := by exact_mod_cast hb
  have hmod : pyMod s bq = s - ⌊s / bq⌋ * bq := by
    unfold pyMod pyFloorDiv
    ring
  constructor
  · rw [hmod, hbq]
    exact Int.sub_floor_div_mul_nonneg s hb'
  · rw [hmod, floor_div_nat_of_nonneg s h b bq hbq, hbq]
    have hcast : ((((⌊s⌋.toNat / b : ℕ) : ℤ) : ℚ)) * (b:ℚ)
        = (((⌊s⌋.toNat / b * b : ℕ) : ℤ) : ℚ) := by push_cast; ring
    rw [hcast, Int.floor_sub_int]
    obtain ⟨n, hn⟩ : ∃ n : ℕ, ⌊s⌋ = (n:ℤ) :=
      ⟨⌊s⌋.toNat, (Int.toNat_of_nonneg (Int.floor_nonneg.mpr h)).symm⟩
    rw [hn]
    simp only [Int.toNat_natCast]
    push_cast
    rw [Int.emod_def]
    ring

/-- Helper: the four numeric fields `ts` computes for a nonnegative input. -/
theorem ts_fields (s : ℚ) (h0 : 0 ≤ s) :
    ts (some s)
      = ⟨zpad 2 ((⌊s⌋.toNat / 3600 : ℕ) : ℤ)
          ++ ':' :: (zpad 2 ((⌊s⌋.toNat % 3600 / 60 : ℕ) : ℤ)
          ++ ':' :: (zpad 2 ((⌊s⌋.toNat % 60 : ℕ) : ℤ)
          ++ ',' :: zpad 3 (pyRound (Int.fract s * 1000))))⟩ := by
  have hm3600 := pyMod_spec s h0 3600 (by norm_num) (3600:ℚ) (by norm_num)
  have hm60 := pyMod_spec s h0 60 (by norm_num) (60:ℚ) (by norm_num)
  have e1 : pyInt (pyFloorDiv s 3600) = ((⌊s⌋.toNat / 3600 : ℕ) : ℤ) := by
    unfold pyFloorDiv
    rw [pyInt_intCast]
    exact floor_div_nat_of_nonneg s h0 3600 (3600:ℚ) (by norm_num)
  have e2 : pyInt (pyFloorDiv (pyMod s 3600) 60) = ((⌊s⌋.toNat % 3600 / 60 : ℕ) : ℤ) := by
    unfold pyFloorDiv
    rw [pyInt_intCast,
      floor_div_nat_of_nonneg (pyMod s 3600) hm3600.1 60 (60:ℚ) (by norm_num),
      hm3600.2, Int.toNat_natCast]
  have e3 : pyInt (pyMod s 60) = ((⌊s⌋.toNat % 60 : ℕ) : ℤ) := by
    rw [pyInt_of_nonneg _ hm60.1, hm60.2]
  have e4 : (s - (pyInt s : ℚ)) * 1000 = Int.fract s * 1000 := by
    rw [pyInt_of_nonneg s h0, Int.self_sub_floor]
  simp only [ts]
  rw [e1, e2, e3, e4]

/-- Helper: two-digit zero-padded decimal form, checked digit by digit. -/
theorem zpad2_digits_fin :
    ∀ n : Fin 100, List.replicate (2 - (Nat.toDigits 10 n.1).length) '0'
        ++ Nat.toDigits 10 n.1
      = [Nat.digitChar (n.1 / 10), Nat.digitChar (n.1 % 10)] := by decide

/-- Helper: three-digit zero-padded decimal form, checked digit by digit. -/
theorem zpad3_digits_fin :
    ∀ n : Fin 1000, List.replicate (3 - (Nat.toDigits 10 n.1).length) '0'
        ++ Nat.toDigits 10 n.1
      = [Nat.digitChar (n.1 / 100), Nat.digitChar (n.1 / 10 % 10),
          Nat.digitChar (n.1 % 10)] := by decide

/-- Helper: `zpad 2` of a natural below 100 in explicit digit form. -/
theorem zpad2_digits (n : ℕ) (hn : n < 100) :
    zpad 2 ((n : ℕ) : ℤ) = [Nat.digitChar (n / 10), Nat.digitChar (n % 10)] := by
  unfold zpad
  rw [if_neg (by omega), Int.toNat_natCast]
  exact zpad2_digits_fin ⟨n, hn⟩

/-- Helper: `zpad 3` of a natural below 1000 in explicit digit form. -/
theorem zpad3_digits (n : ℕ) (hn : n < 1000) :
    zpad 3 ((n : ℕ) : ℤ)
      = [Nat.digitChar (n / 100), Nat.digitChar (n / 10 % 10), Nat.digitChar (n % 10)] := by
  unfold zpad
  rw [if_neg (by omega), Int.toNat_natCast]
  exact zpad3_digits_fin ⟨n, hn⟩

/-- Helper: the floor of a value below `360000` is below `360000`. -/
theorem floor_toNat_lt (s : ℚ) (hlt : s < 360000) : ⌊s⌋.toNat < 360000 := by
  have h1 : ⌊s⌋ < 360000 := Int.floor_lt.mpr (by exact_mod_cast hlt)
  omega

/-- Helper: `ts` on a nonnegative input below 360000 seconds whose rounded
milliseconds stay below 1000 produces exactly the `HH:MM:SS,mmm` digit
form. -/
theorem ts_digits (s : ℚ) (h0 : 0 ≤ s) (hlt : s < 360000)
    (hms : pyRound (Int.fract s * 1000) ≤ 999) :
    ts (some s)
      = tsSpecForm (⌊s⌋.toNat / 3600) (⌊s⌋.toNat % 3600 / 60) (⌊s⌋.toNat % 60)
          (pyRound (Int.fract s * 1000)).toNat := by
  have hn := floor_toNat_lt s hlt
  have hmsn : 0 ≤ pyRound (Int.fract s * 1000) :=
    pyRound_nonneg _ (mul_nonneg (Int.fract_nonneg s) (by norm_num))
  have hcast : pyRound (Int.fract s * 1000)
      = (((pyRound (Int.fract s * 1000)).toNat : ℕ) : ℤ) :=
    (Int.toNat_of_nonneg hmsn).symm
  rw [ts_fields s h0, hcast, zpad2_digits _ (by omega), zpad2_digits _ (by omega),
    zpad2_digits _ (by omega), zpad3_digits _ (by omega)]
  rfl

/-- Helper: decimal digit characters compare like their digits. -/
theorem digitChar_lt_fin :
    ∀ a b : Fin 10, a.1 < b.1 → Nat.digitChar a.1 < Nat.digitChar b.1 := by decide

/-- Helper: decimal digit characters compare like their digits, ℕ version. -/
theorem digitChar_lt (a b : ℕ) (ha : a < 10) (hb : b < 10) (h : a < b) :
    Nat.digitChar a < Nat.digitChar b :=
  digitChar_lt_fin ⟨a, ha⟩ ⟨b, hb⟩ h

/-- Helper: a lexicographic strict comparison of equal-length prefixes
extends to the appended lists. -/
theorem lex_append_of_lex {α : Type} {r : α → α → Prop} (l₁ l₂ : List α)
    (t₁ t₂ : List α) (hlen : l₁.length = l₂.length) (h : List.Lex r l₁ l₂) :
    List.Lex r (l₁ ++ t₁) (l₂ ++ t₂) := by
  induction h with
  | nil => simp at hlen
  | cons h ih => exact List.Lex.cons (ih (by simpa using hlen))
  | rel h => exact List.Lex.rel h

/-- Helper: two-digit groups compare lexicographically like their values. -/
theorem digits2_lex (a b : ℕ) (ha : a < 100) (hb : b < 100) (h : a < b) :
    List.Lex (· < ·) [Nat.digitChar (a / 10), Nat.digitChar (a % 10)]
      [Nat.digitChar (b / 10), Nat.digitChar (b % 10)] := by
  rcases Nat.lt_or_ge (a / 10) (b / 10) with h1 | h1
  · exact List.Lex.rel (digitChar_lt _ _ (by omega) (by omega) h1)
  · have h2 : a / 10 = b / 10 := by omega
    rw [h2]
    exact List.Lex.cons (List.Lex.rel (digitChar_lt _ _ (by omega) (by omega) (by omega)))

/-- Helper: three-digit groups compare lexicographically like their values. -/
theorem digits3_lex (a b : ℕ) (ha : a < 1000) (hb : b < 1000) (h : a < b) :
    List.Lex (· < ·)
      [Nat.digitChar (a / 100), Nat.digitChar (a / 10 % 10), Nat.digitChar (a % 10)]
      [Nat.digitChar (b / 100), Nat.digitChar (b / 10 % 10), Nat.digitChar (b % 10)] := by
  rcases Nat.lt_or_ge (a / 100) (b / 100) with h1 | h1
  · exact List.Lex.rel (digitChar_lt _ _ (by omega) (by omega) h1)
  · have h2 : a / 100 = b / 100 := by omega
    rw [h2]
    rcases Nat.lt_or_ge (a / 10 % 10) (b / 10 % 10) with h3 | h3
    · exact List.Lex.cons (List.Lex.rel (digitChar_lt _ _ (by omega) (by omega) h3))
    · have h4 : a / 10 % 10 = b / 10 % 10 := by omega
      rw [h4]
      exact List.Lex.cons (List.Lex.cons
        (List.Lex.rel (digitChar_lt _ _ (by omega) (by omega) (by omega))))

/-- Helper: the fixed-width `HH:MM:SS,mmm` form orders lexicographically by
the tuple of its field values. -/
theorem tsSpecForm_le (h₁ m₁ s₁ ms₁ h₂ m₂ s₂ ms₂ : ℕ)
    (hh₁ : h₁ < 100) (hh₂ : h₂ < 100) (hm₁ : m₁ < 100) (hm₂ : m₂ < 100)
    (hs₁ : s₁ < 100) (hs₂ : s₂ < 100) (hms₁ : ms₁ < 1000) (hms₂ : ms₂ < 1000)
    (hcmp : h₁ < h₂ ∨ h₁ = h₂ ∧ (m₁ < m₂ ∨ m₁ = m₂ ∧ (s₁ < s₂ ∨ s₁ = s₂ ∧ ms₁ ≤ ms₂))) :
    tsSpecForm h₁ m₁ s₁ ms₁ ≤ tsSpecForm h₂ m₂ s₂ ms₂ := by
  rw [String.le_iff_toList_le]
  rcases hcmp with h | ⟨rfl, h⟩
  · apply le_of_lt
    show List.Lex (· < ·) _ _
    exact lex_append_of_lex
      [Nat.digitChar (h₁ / 10), Nat.digitChar (h₁ % 10)]
      [Nat.digitChar (h₂ / 10), Nat.digitChar (h₂ % 10)] _ _ rfl
      (digits2_lex h₁ h₂ hh₁ hh₂ h)
  rcases h with h | ⟨rfl, h⟩
  · apply le_of_lt
    show List.Lex (· < ·) _ _
    refine List.Lex.append_left (· < ·) ?_
      [Nat.digitChar (h₁ / 10), Nat.digitChar (h₁ % 10), ':']
    exact lex_append_of_lex
      [Nat.digitChar (m₁ / 10), Nat.digitChar (m₁ % 10)]
      [Nat.digitChar (m₂ / 10), Nat.digitChar (m₂ % 10)] _ _ rfl
      (digits2_lex m₁ m₂ hm₁ hm₂ h)
  rcases h with h | ⟨rfl, h⟩
  · apply le_of_lt
    show List.Lex (· < ·) _ _
    refine List.Lex.append_left (· < ·) ?_
      [Nat.digitChar (h₁ / 10), Nat.digitChar (h₁ % 10), ':',
        Nat.digitChar (m₁ / 10), Nat.digitChar (m₁ % 10), ':']
    exact lex_append_of_lex
      [Nat.digitChar (s₁ / 10), Nat.digitChar (s₁ % 10)]
      [Nat.digitChar (s₂ / 10), Nat.digitChar (s₂ % 10)] _ _ rfl
      (digits2_lex s₁ s₂ hs₁ hs₂ h)
  rcases Nat.lt_or_ge ms₁ ms₂ with h' | h'
  · apply le_of_lt
    show List.Lex (· < ·) _ _
    refine List.Lex.append_left (· < ·) ?_
      [Nat.digitChar (h₁ / 10), Nat.digitChar (h₁ % 10), ':',
        Nat.digitChar (m₁ / 10), Nat.digitChar (m₁ % 10), ':',
        Nat.digitChar (s₁ / 10), Nat.digitChar (s₁ % 10), ',']
    exact digits3_lex ms₁ ms₂ hms₁ hms₂ h'
  · have h2 : ms₁ = ms₂ := by omega
    rw [h2]

/-- C4 (amended): within the fixed-width regime — both values nonnegative,
below 100 hours, and with rounded milliseconds below 1000 — `ts` is monotone
with respect to lexicographic string order. -/
theorem ts_lex_mono (start «end» : ℚ) (h0 : 0 ≤ start) (hse : start ≤ «end»)
    (hb : «end» < 360000)
    (hf1 : Int.fract start < 1999/2000) (hf2 : Int.fract «end» < 1999/2000) :
    ts (some start) ≤ ts (some «end») := by
  have h0e : 0 ≤ «end» := le_trans h0 hse
  have hlt1 : start < 360000 := lt_of_le_of_lt hse hb
  have hms1 : pyRound (Int.fract start * 1000) ≤ 999 := by
    apply pyRound_le_999
    have := mul_lt_mul_of_pos_right hf1 (show (0:ℚ) < 1000 by norm_num)
    linarith
  have hms2 : pyRound (Int.fract «end» * 1000) ≤ 999 := by
    apply pyRound_le_999
    have := mul_lt_mul_of_pos_right hf2 (show (0:ℚ) < 1000 by norm_num)
    linarith
  have hmsn1 : 0 ≤ pyRound (Int.fract start * 1000) :=
    pyRound_nonneg _ (mul_nonneg (Int.fract_nonneg _) (by norm_num))
  have hmsn2 : 0 ≤ pyRound (Int.fract «end» * 1000) :=
    pyRound_nonneg _ (mul_nonneg (Int.fract_nonneg _) (by norm_num))
  have hn1 := floor_toNat_lt start hlt1
  have hn2 := floor_toNat_lt «end» hb
  rw [ts_digits start h0 hlt1 hms1, ts_digits «end» h0e hb hms2]
  refine tsSpecForm_le _ _ _ _ _ _ _ _ (by omega) (by omega) (by omega) (by omega)
    (by omega) (by omega) (by omega) (by omega) ?_
  have hle : ⌊start⌋.toNat ≤ ⌊«end»⌋.toNat := Int.toNat_le_toNat (Int.floor_mono hse)
  rcases Nat.lt_or_ge ⌊start⌋.toNat ⌊«end»⌋.toNat with hlt | hge
  · omega
  · have heq : ⌊start⌋.toNat = ⌊«end»⌋.toNat := by omega
    have hfeq : ⌊start⌋ = ⌊«end»⌋ := by
      have l1 : 0 ≤ ⌊start⌋ := Int.floor_nonneg.mpr h0
      have l2 : 0 ≤ ⌊«end»⌋ := Int.floor_nonneg.mpr h0e
      omega
    have hfr : Int.fract start ≤ Int.fract «end» := by
      rw [← Int.self_sub_floor, ← Int.self_sub_floor, hfeq]
      linarith
    have hmle : pyRound (Int.fract start * 1000) ≤ pyRound (Int.fract «end» * 1000) :=
      pyRound_mono (mul_le_mul_of_nonneg_right hfr (by norm_num))
    have hmt := Int.toNat_le_toNat hmle
    exact Or.inr ⟨by rw [heq], Or.inr ⟨by rw [heq], Or.inr ⟨by rw [heq], hmt⟩⟩⟩

/-- C1 (amended): `ts` of an absent value is `"00:00:00,000"`; for
nonnegative seconds below 100 hours whose rounded milliseconds stay below
1000, `ts` produces the exact `HH:MM:SS,mmm` digit form with in-range
fields, the millisecond value within one half of the true scaled fractional
part (rounding, not truncation). -/
theorem ts_fixed_width_rounding :
    ts none = "00:00:00,000"
    ∧ ∀ s : ℚ, 0 ≤ s → s < 360000 → Int.fract s < 1999/2000 →
      ∃ ms : ℕ, ms ≤ 999
        ∧ |Int.fract s * 1000 - (ms : ℚ)| ≤ 1/2
        ∧ ⌊s⌋.toNat / 3600 < 100 ∧ ⌊s⌋.toNat % 3600 / 60 < 60 ∧ ⌊s⌋.toNat % 60 < 60
        ∧ ts (some s) = tsSpecForm (⌊s⌋.toNat / 3600) (⌊s⌋.toNat % 3600 / 60)
            (⌊s⌋.toNat % 60) ms := by
  refine ⟨rfl, ?_⟩
  intro s h0 hlt hf
  have hms : pyRound (Int.fract s * 1000) ≤ 999 := by
    apply pyRound_le_999
    have := mul_lt_mul_of_pos_right hf (show (0:ℚ) < 1000 by norm_num)
    linarith
  have hnn : 0 ≤ pyRound (Int.fract s * 1000) :=
    pyRound_nonneg _ (mul_nonneg (Int.fract_nonneg _) (by norm_num))
  have hn := floor_toNat_lt s hlt
  refine ⟨(pyRound (Int.fract s * 1000)).toNat, by omega, ?_, by omega, by omega, by omega,
    ts_digits s h0 hlt hms⟩
  have habs := abs_sub_pyRound (Int.fract s * 1000)
  have hc : (((pyRound (Int.fract s * 1000)).toNat : ℕ) : ℚ)
      = ((pyRound (Int.fract s * 1000) : ℤ) : ℚ) := by
    exact_mod_cast congrArg (fun k : ℤ => (k : ℚ)) (Int.toNat_of_nonneg hnn)
  rw [hc]
  exact habs

/-- Counterexample to C1 as stated: rounding to 1000 milliseconds does not
carry — the code emits a four-digit millisecond field — and hours may grow
past two digits; both strings fall outside the fixed 12-character
`HH:MM:SS,mmm` form. -/
theorem ts_no_carry_counterexample :
    ts (some (4095/4096 : ℚ)) = "00:00:00,1000"
    ∧ ts (some (360000 : ℚ)) = "100:00:00,000"
    ∧ ("00:00:00,1000" : String).length = 13
    ∧ ("100:00:00,000" : String).length = 13 := by
  refine ⟨?_, ?_, by decide, by decide⟩
  · simp only [ts]
    norm_num [pyInt, pyFloorDiv, pyMod, pyRound, Int.fract]
    rfl
  · simp only [ts]
    norm_num [pyInt, pyFloorDiv, pyMod, pyRound, Int.fract]
    rfl

/-- Counterexample to C4 as stated: `511/512 ≤ 4095/4096` (both are exact
binary floats), yet the second timestamp's overflowing four-digit
millisecond field makes the strings compare the wrong way around. -/
theorem ts_lex_counterexample :
    (0:ℚ) ≤ 511/512 ∧ (511/512:ℚ) ≤ 4095/4096
    ∧ ¬ (ts (some (511/512 : ℚ)) ≤ ts (some (4095/4096 : ℚ))) := by
  refine ⟨by norm_num, by norm_num, ?_⟩
  have e1 : ts (some (511/512 : ℚ)) = "00:00:00,998" := by
    simp only [ts]
    norm_num [pyInt, pyFloorDiv, pyMod, pyRound, Int.fract]
    rfl
  have e2 : ts (some (4095/4096 : ℚ)) = "00:00:00,1000" := by
    simp only [ts]
    norm_num [pyInt, pyFloorDiv, pyMod, pyRound, Int.fract]
    rfl
  rw [e1, e2, String.le_iff_toList_le]
  decide

/-- Witness for the amended C4 at concrete inputs 1 and 3661.5 seconds. -/
theorem ts_lex_mono_witness :
    ts (some (1 : ℚ)) ≤ ts (some (3661.5 : ℚ)) := by
  have hf1 : Int.fract (1 : ℚ) = 0 := by
    rw [Int.fract]
    norm_num
  have hf2 : Int.fract (3661.5 : ℚ) = 1/2 := by
    rw [Int.fract]
    norm_num
  exact ts_lex_mono 1 3661.5 (by norm_num) (by norm_num) (by norm_num)
    (by rw [hf1]; norm_num) (by rw [hf2]; norm_num)

/-- Witness for the amended C1 at the concrete input 3661.5 seconds. -/
theorem ts_fixed_width_rounding_witness :
    (0:ℚ) ≤ 3661.5 ∧ (3661.5:ℚ) < 360000 ∧ Int.fract (3661.5:ℚ) < 1999/2000
    ∧ ∃ ms : ℕ, ms ≤ 999
        ∧ |Int.fract (3661.5:ℚ) * 1000 - (ms : ℚ)| ≤ 1/2
        ∧ ⌊(3661.5:ℚ)⌋.toNat / 3600 < 100 ∧ ⌊(3661.5:ℚ)⌋.toNat % 3600 / 60 < 60
        ∧ ⌊(3661.5:ℚ)⌋.toNat % 60 < 60
        ∧ ts (some (3661.5:ℚ)) = tsSpecForm (⌊(3661.5:ℚ)⌋.toNat / 3600)
            (⌊(3661.5:ℚ)⌋.toNat % 3600 / 60) (⌊(3661.5:ℚ)⌋.toNat % 60) ms := by
  have hf2 : Int.fract (3661.5 : ℚ) = 1/2 := by
    rw [Int.fract]
    norm_num
  refine ⟨by norm_num, by norm_num, by rw [hf2]; norm_num, ?_⟩
  exact ts_fixed_width_rounding.2 3661.5 (by norm_num) (by norm_num) (by rw [hf2]; norm_num)

end Audio2Text
